import Mathlib

/-!
Shallow embedding of the `pipesys` descriptor-distribution and filesystem
rendezvous protocol (crate `tools/pipesys`), covering:

* the transfer codec used between `MultiServer::serve` (Source) and
  `fetch_fds` / `fetch_usize` (Sink), from `src/multi_server.rs` and
  `src/cmd/mod.rs`;
* the path sanitizer `as_relative_path` from `src/cmd/multi_link.rs`;
* the Sink precondition checks of `MultiLink::execute`;
* the Source accept loop of `MultiServer::serve`;
* the rendezvous wait (`wait_for_marker`, `file_found`, `file_not_found`).

Machine bytes are modelled as `Nat` values (u8 range where it matters),
`usize` as a 64-bit native word, fallible Rust code as `Except String`.
-/

deriving instance DecidableEq for Except

namespace Pipesys

/-! ## Native-word codec (`usize::to_ne_bytes` / `usize::from_ne_bytes`)

The wire protocol sends `usize` length fields as `size_of::<usize>()` bytes.
On the 64-bit targets this crate supports, `usize` is 8 bytes; we model the
byte order as little-endian (the claims do not depend on endianness, only on
the encode/decode pair being mutually inverse and fixed-width). -/

/-- Number of bytes of a native word: `std::mem::size_of::<usize>()`. -/
def usizeBytes : Nat := 8

/-- Little-endian byte encoding of `n` into `k` bytes (wrapping, as a machine
integer would). -/
def encodeWordAux : Nat → Nat → List Nat
  | 0, _ => []
  | k + 1, n => n % 256 :: encodeWordAux k (n / 256)

/-- `usize::to_ne_bytes`: the 8-byte native encoding of `n % 2^64`. -/
def encodeUsize (n : Nat) : List Nat := encodeWordAux usizeBytes n

/-- Little-endian byte decoding, `usize::from_ne_bytes` on an 8-byte buffer. -/
def decodeWord : List Nat → Nat
  | [] => 0
  | b :: bs => b + 256 * decodeWord bs

/-! ## Transfer payload codec (bincode `Vec<PathBuf>`)

`MultiServer::serve` serializes the list of target paths with
`bincode::serialize`; `fetch_fds` deserializes with `bincode::deserialize`.
With bincode's default (fixint) encoding, a `Vec` is a `u64` element count
followed by the elements, each path a `u64` byte length followed by its
bytes, and deserialization rejects trailing bytes.  Paths are modelled by
their byte strings (`List Nat`). -/

/-- Serialized form of one path: length prefix then bytes. -/
def encodePath (p : List Nat) : List Nat := encodeUsize p.length ++ p

/-- `bincode::serialize` of a `Vec<PathBuf>`: count prefix then elements. -/
def encodePaths (ps : List (List Nat)) : List Nat :=
  encodeUsize ps.length ++ (ps.map encodePath).flatten

/-- Decode `k` length-prefixed paths, returning them with the unconsumed
remainder of the input. -/
def decodePathsAux : Nat → List Nat → Option (List (List Nat) × List Nat)
  | 0, rest => some ([], rest)
  | k + 1, rest =>
    if usizeBytes ≤ rest.length then
      let len := decodeWord (rest.take usizeBytes)
      let body := rest.drop usizeBytes
      if len ≤ body.length then
        (decodePathsAux k (body.drop len)).map
          (fun pr => (body.take len :: pr.1, pr.2))
      else none
    else none

/-- `bincode::deserialize::<Vec<PathBuf>>`: read the count, then that many
paths, and reject any trailing bytes. -/
def decodePaths (bs : List Nat) : Option (List (List Nat)) :=
  if usizeBytes ≤ bs.length then
    match decodePathsAux (decodeWord (bs.take usizeBytes)) (bs.drop usizeBytes) with
    | some (ps, []) => some ps
    | _ => none
  else none

/-! ## Wire model

A seqpacket connection delivers whole datagrams; `recv` into a buffer of
size `n` copies `min (datagram length) n` bytes and reports that count, with
the payload flagged truncated when the datagram exceeded the buffer.  The
exchange of `MultiServer::serve` consists of three datagrams: the two
native-word length fields and the payload-plus-descriptors message. -/

/-- The third datagram: serialized target paths as payload, raw descriptors
as ancillary data. -/
structure Datagram where
  payload : List Nat
  fds : List Int
deriving DecidableEq

/-- One full connection transcript as sent by the Source: the targets-length
datagram, the descriptor-count datagram, and the transfer datagram. -/
structure Transcript where
  d1 : List Nat
  d2 : List Nat
  d3 : Datagram
deriving DecidableEq

/-- Model of `fetch_usize` (`src/cmd/mod.rs`): receive a datagram into a
zero-initialized `size_of::<usize>()`-byte buffer, bail unless the byte count
received equals the buffer length, else `usize::from_ne_bytes`. -/
def fetch_usize (d : List Nat) : Except String Nat :=
  let received := min d.length usizeBytes
  if usizeBytes ≠ received then
    Except.error "socket sent invalid field"
  else
    Except.ok (decodeWord (d.take usizeBytes))

-- Don't accept file descriptors 0, 1, or 2 since those correspond to the
-- well-known stdin, stdout, and stderr (`MIN_FD` in `src/cmd/mod.rs`).
def MIN_FD : Int := 3

/-- Model of the validation-plus-duplication of one received descriptor in
`fetch_fds`: `(fd > MIN_FD).then_some(fd).ok_or_else(...).and_then(duplicate_fd)`.
`duplicate_fd` calls `fcntl(fd, F_DUPFD(MIN_FD))`, whose result depends on
the kernel's descriptor table; it is parametrized here by an allocator
`dup : Int → Option Int` (`none` models an `fcntl` failure). -/
def validateFd (dup : Int → Option Int) (fd : Int) : Except String Int :=
  if MIN_FD < fd then
    match dup fd with
    | some newfd => Except.ok newfd
    | none => Except.error "failed to duplicate file descriptor"
  else
    Except.error "received invalid file descriptor"

/-- Model of `fetch_fds` (`src/cmd/mod.rs` lines 143–190): read the two
length fields, size the receive buffers from them, receive the transfer
datagram, check descriptor count, byte count and truncation, deserialize the
target paths, validate and duplicate every descriptor, and zip targets with
descriptors. -/
def fetch_fds (dup : Int → Option Int) (t : Transcript) :
    Except String (List (List Nat × Int)) :=
  match fetch_usize t.d1 with
  | Except.error e => Except.error e
  | Except.ok targetsMessageLen =>
    match fetch_usize t.d2 with
    | Except.error e => Except.error e
    | Except.ok numFds =>
      -- recv_fds into `vec![0u8; targets_message_len]` and `vec![-1; num_fds]`
      let bytes := min t.d3.payload.length targetsMessageLen
      let truncated := decide (targetsMessageLen < t.d3.payload.length)
      let fdsReceived := min t.d3.fds.length numFds
      if fdsReceived ≠ numFds then
        Except.error "received wrong number of file descriptors"
      else if bytes ≠ targetsMessageLen then
        Except.error "received wrong number of bytes for targets"
      else if truncated then
        Except.error "expected bytes for targets, but more received"
      else
        match decodePaths (t.d3.payload.take targetsMessageLen) with
        | none => Except.error "failed to deserialize targets"
        | some targets =>
          match (t.d3.fds.take numFds).mapM (validateFd dup) with
          | Except.error e => Except.error e
          | Except.ok fds => Except.ok (targets.zip fds)

/-- One configured resource to publish (`FileBinding` in
`src/multi_server.rs`); paths are modelled by their byte strings. -/
structure FileBinding where
  source_path : List Nat
  target_path : List Nat
deriving DecidableEq

/-- The transcript sent to one validated client by `MultiServer::serve`
(`src/multi_server.rs` lines 76–149): the serialized target-path list's byte
length, the descriptor count, then the payload with the descriptors as
ancillary data.  `fds` is the list of raw descriptors obtained by opening
each binding's source file, one per binding, in binding order. -/
def serveTranscript (bindings : List FileBinding) (fds : List Int) : Transcript :=
  let targetPaths := encodePaths (bindings.map FileBinding.target_path)
  { d1 := encodeUsize targetPaths.length
    d2 := encodeUsize fds.length
    d3 := { payload := targetPaths, fds := fds } }

/-! ## Path sanitizer (`as_relative_path`, `src/cmd/multi_link.rs`)

A Rust `Path` is modelled by whether it is absolute (has a leading root
component) and its list of remaining components.  `Path::components` never
yields an empty component; the root component's `as_os_str` is "/", so it is
kept out of the component list and tracked by the `absolute` flag. -/

structure RPath where
  absolute : Bool
  components : List String
deriving DecidableEq

/-- `Path::join` with a relative right operand appends components; an
absolute right operand replaces the whole path. -/
def RPath.join (p q : RPath) : RPath :=
  if q.absolute then q
  else { absolute := p.absolute, components := p.components ++ q.components }

/-- `path.strip_prefix("/").unwrap_or(&path)`: stripping the root marker
succeeds exactly on absolute paths; on relative paths the original is kept. -/
def stripRoot (p : RPath) : RPath :=
  if p.absolute then { absolute := false, components := p.components } else p

/-- `relative_path.starts_with("..")`: component-wise prefix test against
the single-component relative path "..". -/
def startsWithParentRef (p : RPath) : Bool :=
  !p.absolute && p.components.head? == some ".."

/-- Model of `as_relative_path` (`src/cmd/multi_link.rs` lines 147–167). -/
def as_relative_path (parent path : RPath) : Except String RPath :=
  if path.components.any (fun c => c == "..") then
    Except.error "target path may not refer to parents"
  else
    let relativePath := stripRoot path
    if startsWithParentRef relativePath then
      Except.error "input path is outside of the bounds of the provided parent"
    else
      Except.ok (parent.join relativePath)

/-! ## Sink orchestration (`MultiLink::execute`, `src/cmd/multi_link.rs`)

The foreground control flow of `execute` is embedded as a function of the
observable world (whether the parent path and the marker path exist) and of
the outcomes of the externally-effectful steps, returning the `Result`
together with the ordered list of effects performed. -/

inductive SinkEffect where
  | fetchFds
  | createLogFile
  | daemonize
  | fsMutation
deriving DecidableEq

structure SinkWorld where
  parentPathEx : Bool
  markerPathEx : Bool
deriving DecidableEq

/-- Model of the foreground portion of `MultiLink::execute` (lines 29–88):
check the parent path, check the marker path, fetch the descriptors, create
the log file streams, then daemonize (the child publishes; the foreground
waits for the marker).  `fetchRes` and `logRes` are the outcomes of the two
fallible external steps. -/
def multiLinkExecuteFg (w : SinkWorld)
    (fetchRes : Except String (List (List Nat × Int)))
    (logRes : Except String Unit) :
    Except String Unit × List SinkEffect :=
  if w.parentPathEx then
    (Except.error "found existing file or directory at parent", [])
  else if w.markerPathEx then
    (Except.error "found existing file or directory at marker", [])
  else
    match fetchRes with
    | Except.error e => (Except.error e, [SinkEffect.fetchFds])
    | Except.ok _ =>
      match logRes with
      | Except.error e =>
        (Except.error e, [SinkEffect.fetchFds, SinkEffect.createLogFile])
      | Except.ok _ =>
        (Except.ok (),
          [SinkEffect.fetchFds, SinkEffect.createLogFile, SinkEffect.daemonize,
            SinkEffect.fsMutation])

/-! ## Source accept loop (`MultiServer::serve`, `src/multi_server.rs`)

One accepted connection is modelled by its peer credential as reported by
`initial_peer_credentials` (`none` models a failure of that call) and by
whether the spawned send task would succeed.  The loop is modelled over a
finite prefix of the incoming connection stream; an `Except.ok` result means
the loop is still running after that prefix (the Rust loop has no successful
exit), `Except.error` means `serve` returned with that fatal error. -/

structure Conn where
  peerCreds : Option Nat
  sendOk : Bool
deriving DecidableEq

inductive ServeEvent where
  /-- The connection's UID did not match; it was dropped without a message. -/
  | ignoredMismatch (uid : Nat)
  /-- The message was handed to a spawned send task with this outcome. -/
  | sentMessage (uid : Nat) (ok : Bool)
deriving DecidableEq

/-- Model of the accept loop of `MultiServer::serve` (lines 112–151):
`initial_peer_credentials` failure propagates out of `serve` via `?`; a UID
mismatch logs and `continue`s; otherwise the send runs in a `tokio::spawn`
task whose result is discarded. -/
def serveLoop (clientUid : Nat) : List Conn → Except String (List ServeEvent)
  | [] => Except.ok []
  | c :: rest =>
    match c.peerCreds with
    | none => Except.error "failed to obtain peer credentials"
    | some uid =>
      if uid ≠ clientUid then
        (serveLoop clientUid rest).map (ServeEvent.ignoredMismatch uid :: ·)
      else
        (serveLoop clientUid rest).map (ServeEvent.sentMessage uid c.sendOk :: ·)

/-- The messages actually sent (uid, send outcome) in a serve-loop run. -/
def sentMessages : List ServeEvent → List (Nat × Bool)
  | [] => []
  | ServeEvent.ignoredMismatch _ :: evs => sentMessages evs
  | ServeEvent.sentMessage uid ok :: evs => (uid, ok) :: sentMessages evs

/-! ## Rendezvous wait (`wait_for_marker` / `file_found`, `src/cmd/multi_link.rs`)

The filesystem state visible to the wait is the set of existing paths,
modelled as a list.  `file_found` and `file_not_found` are from
`src/cmd/multi_link.rs` (lines 129–145). -/

abbrev FsState := List String

/-- `file_found` (lines 129–140): `fs::metadata(path)` succeeds exactly when
a file exists at the path. -/
def file_found (fs : FsState) (path : String) : Bool := fs.contains path

/-- `file_not_found` (lines 142–145). -/
def file_not_found (fs : FsState) (path : String) : Bool := !file_found fs path

/-- Modelled from the spec: `inotify_wait` is defined in `link.rs`, which is
not among these sources; per §4.6 the watch primitive "is level-triggered
with an explicit pre-check: establishing a watch for 'condition becomes
true' must first check whether the condition is already true, then fall back
to blocking on the underlying event stream".  The wait is modelled over the
current state `s` and the stream of states after each later filesystem
event; the result is the number of events consumed before the condition held
(`none`: the condition never held, the wait blocks forever). -/
def inotifyWait (check : FsState → Bool) (s : FsState) (events : List FsState) :
    Option Nat :=
  if check s then some 0
  else
    match events with
    | [] => none
    | s' :: rest => (inotifyWait check s' rest).map (· + 1)

/-- `MultiLink::wait_for_marker` (lines 90–93): wait until a file exists at
the marker path. -/
def waitForMarkerCreate (marker : String) (s : FsState) (events : List FsState) :
    Option Nat :=
  inotifyWait (fun fs => file_found fs marker) s events

/-- The marker-deletion wait of `MultiLink::manage_symlinks` (line 121):
wait until no file exists at the marker path. -/
def waitForMarkerDelete (marker : String) (s : FsState) (events : List FsState) :
    Option Nat :=
  inotifyWait (fun fs => file_not_found fs marker) s events

/-! ## Codec and exchange lemmas -/

theorem encodeWordAux_length (k n : Nat) : (encodeWordAux k n).length = k := by
  induction k generalizing n with
  | zero => rfl
  | succ k ih => simp [encodeWordAux, ih]

theorem decodeWord_encodeWordAux (k n : Nat) :
    decodeWord (encodeWordAux k n) = n % 256 ^ k := by
  induction k generalizing n with
  | zero => simp [encodeWordAux, decodeWord, Nat.mod_one]
  | succ k ih =>
    simp only [encodeWordAux, decodeWord, ih]
    rw [pow_succ, mul_comm (256 ^ k) 256, Nat.mod_mul]

theorem decodeWord_encodeUsize (n : Nat) (h : n < 2 ^ 64) :
    decodeWord (encodeUsize n) = n := by
  have : (256 : Nat) ^ usizeBytes = 2 ^ 64 := by norm_num [usizeBytes]
  rw [encodeUsize, decodeWord_encodeWordAux, this, Nat.mod_eq_of_lt h]

theorem encodeUsize_length (n : Nat) : (encodeUsize n).length = usizeBytes :=
  encodeWordAux_length _ _

theorem take_append_of_length {α : Type} (xs ys : List α) :
    (xs ++ ys).take xs.length = xs := by
  simp

theorem drop_append_of_length {α : Type} (xs ys : List α) :
    (xs ++ ys).drop xs.length = ys := by
  simp

theorem decodePathsAux_encode (ps : List (List Nat)) (rest : List Nat)
    (h : ∀ p ∈ ps, p.length < 2 ^ 64) :
    decodePathsAux ps.length ((ps.map encodePath).flatten ++ rest) =
      some (ps, rest) := by
  induction ps with
  | nil => simp [decodePathsAux]
  | cons p ps ih =>
    have hp : p.length < 2 ^ 64 := h p (List.mem_cons_self p ps)
    have hps : ∀ q ∈ ps, q.length < 2 ^ 64 :=
      fun q hq => h q (List.mem_cons_of_mem p hq)
    simp only [List.length_cons, List.map_cons, List.flatten, decodePathsAux]
    rw [encodePath]
    have harr : encodeUsize p.length ++ p ++ (ps.map encodePath).flatten ++ rest
        = encodeUsize p.length ++ (p ++ ((ps.map encodePath).flatten ++ rest)) := by
      simp [List.append_assoc]
    rw [harr]
    have hlen8 : usizeBytes ≤
        (encodeUsize p.length ++ (p ++ ((ps.map encodePath).flatten ++ rest))).length := by
      simp [encodeUsize_length]
    rw [if_pos hlen8]
    have htake : (encodeUsize p.length ++ (p ++ ((ps.map encodePath).flatten ++ rest))).take usizeBytes
        = encodeUsize p.length := by
      rw [← encodeUsize_length p.length, take_append_of_length]
    have hdrop : (encodeUsize p.length ++ (p ++ ((ps.map encodePath).flatten ++ rest))).drop usizeBytes
        = p ++ ((ps.map encodePath).flatten ++ rest) := by
      rw [← encodeUsize_length p.length, drop_append_of_length]
    rw [htake, hdrop, decodeWord_encodeUsize p.length hp]
    have hplen : p.length ≤ (p ++ ((ps.map encodePath).flatten ++ rest)).length := by
      simp
    rw [if_pos hplen, take_append_of_length, drop_append_of_length, ih hps]
    rfl

theorem decodePaths_encodePaths (ps : List (List Nat))
    (hcount : ps.length < 2 ^ 64) (h : ∀ p ∈ ps, p.length < 2 ^ 64) :
    decodePaths (encodePaths ps) = some ps := by
  rw [decodePaths, encodePaths]
  have hlen8 : usizeBytes ≤ (encodeUsize ps.length ++ (ps.map encodePath).flatten).length := by
    simp [encodeUsize_length]
  rw [if_pos hlen8]
  have htake : (encodeUsize ps.length ++ (ps.map encodePath).flatten).take usizeBytes
      = encodeUsize ps.length := by
    rw [← encodeUsize_length ps.length, take_append_of_length]
  have hdrop : (encodeUsize ps.length ++ (ps.map encodePath).flatten).drop usizeBytes
      = (ps.map encodePath).flatten := by
    rw [← encodeUsize_length ps.length, drop_append_of_length]
  rw [htake, hdrop, decodeWord_encodeUsize ps.length hcount]
  have := decodePathsAux_encode ps [] h
  rw [List.append_nil] at this
  rw [this]

theorem fetch_usize_encode (n : Nat) (h : n < 2 ^ 64) :
    fetch_usize (encodeUsize n) = Except.ok n := by
  rw [fetch_usize]
  have hlen : (encodeUsize n).length = usizeBytes := encodeUsize_length n
  simp only [hlen, min_self, ne_eq, not_true_eq_false, if_false]
  rw [List.take_of_length_le (le_of_eq hlen), decodeWord_encodeUsize n h]

theorem mapM_validateFd (dup : Int → Option Int) (g : Int → Int) (fds : List Int)
    (hvalid : ∀ fd ∈ fds, MIN_FD < fd)
    (hdup : ∀ fd ∈ fds, dup fd = some (g fd)) :
    fds.mapM (validateFd dup) = Except.ok (fds.map g) := by
  induction fds with
  | nil => rfl
  | cons fd fds ih =>
    have h1 : MIN_FD < fd := hvalid fd (List.mem_cons_self fd fds)
    have h2 : dup fd = some (g fd) := hdup fd (List.mem_cons_self fd fds)
    have ih' := ih (fun x hx => hvalid x (List.mem_cons_of_mem fd hx))
      (fun x hx => hdup x (List.mem_cons_of_mem fd hx))
    rw [List.mapM_cons, ih', validateFd, if_pos h1, h2]
    rfl

theorem fetch_fds_serveTranscript (bindings : List FileBinding) (fds : List Int)
    (dup : Int → Option Int) (g : Int → Int)
    (hlen : fds.length = bindings.length)
    (hcount : bindings.length < 2 ^ 64)
    (hsmall : ∀ b ∈ bindings, b.target_path.length < 2 ^ 64)
    (hpay : (encodePaths (bindings.map FileBinding.target_path)).length < 2 ^ 64)
    (hvalid : ∀ fd ∈ fds, MIN_FD < fd)
    (hdup : ∀ fd ∈ fds, dup fd = some (g fd)) :
    fetch_fds dup (serveTranscript bindings fds) =
      Except.ok ((bindings.map FileBinding.target_path).zip (fds.map g)) := by
  have hnum : fds.length < 2 ^ 64 := hlen ▸ hcount
  have htlen : (bindings.map FileBinding.target_path).length < 2 ^ 64 := by
    rw [List.length_map]; exact hcount
  have hpaths : ∀ p ∈ bindings.map FileBinding.target_path, p.length < 2 ^ 64 := by
    intro p hp
    obtain ⟨b, hb, rfl⟩ := List.mem_map.mp hp
    exact hsmall b hb
  have hdec := decodePaths_encodePaths (bindings.map FileBinding.target_path) htlen hpaths
  have hmap := mapM_validateFd dup g fds hvalid hdup
  rw [fetch_fds]
  simp only [serveTranscript, fetch_usize_encode _ hpay, fetch_usize_encode _ hnum,
    min_self, ne_eq, not_true_eq_false, if_false, lt_self_iff_false,
    List.take_length, hdec, hmap]
  simp

theorem zip_lengths {α β : Type} (xs : List α) (ys : List β)
    (h : xs.length = ys.length) :
    (xs.zip ys).length = xs.length ∧ (xs.zip ys).map Prod.fst = xs ∧
      (xs.zip ys).map Prod.snd = ys := by
  refine ⟨?_, ?_, ?_⟩
  · rw [List.length_zip, h, min_self]
  · exact List.map_fst_zip xs ys (le_of_eq h)
  · exact List.map_snd_zip xs ys (le_of_eq h.symm)

/-! ## Helper lemmas about the path sanitizer -/

theorem as_relative_path_error_of_mem (parent path : RPath)
    (h : ".." ∈ path.components) :
    as_relative_path parent path = Except.error "target path may not refer to parents" := by
  rw [as_relative_path, if_pos]
  rw [List.any_eq_true]
  exact ⟨"..", h, by rfl⟩

theorem as_relative_path_ok_of_not_mem (parent path : RPath)
    (h : ".." ∉ path.components) :
    as_relative_path parent path =
      Except.ok ⟨parent.absolute, parent.components ++ path.components⟩ := by
  obtain ⟨ab, comps⟩ := path
  simp only [] at h
  have hany : ¬ (comps.any (fun c => c == "..") = true) := by
    rw [List.any_eq_true]
    rintro ⟨c, hc, hcc⟩
    exact h ((beq_iff_eq.mp hcc) ▸ hc)
  have hstrip : stripRoot ⟨ab, comps⟩ = ⟨false, comps⟩ := by
    rw [stripRoot]
    cases ab with
    | false => rfl
    | true => rfl
  have hhead : (comps.head? == some "..") = false := by
    cases comps with
    | nil => rfl
    | cons c cs =>
      have hne : c ≠ ".." := fun e => h (e ▸ List.mem_cons_self c cs)
      simpa using hne
  have hsw : startsWithParentRef ⟨false, comps⟩ = false := by
    rw [startsWithParentRef]
    simp only [Bool.not_false, Bool.true_and]
    exact hhead
  simp only [as_relative_path, hstrip, hsw, Bool.false_eq_true, if_false, hany,
    if_neg hany, RPath.join, Except.ok.injEq]

theorem mapM_ok_length {α β : Type} (f : α → Except String β) :
    ∀ (l : List α) (r : List β), l.mapM f = Except.ok r → r.length = l.length := by
  intro l
  induction l with
  | nil =>
    intro r h
    simp only [List.mapM_nil, pure, Except.pure, Except.ok.injEq] at h
    rw [← h]
    rfl
  | cons x xs ih =>
    intro r h
    rw [List.mapM_cons] at h
    cases hf : f x with
    | error e =>
      rw [hf] at h
      simp only [bind, Except.bind] at h
      exact Except.noConfusion h
    | ok y =>
      rw [hf] at h
      cases hm : xs.mapM f with
      | error e =>
        rw [hm] at h
        simp only [bind, Except.bind] at h
        exact Except.noConfusion h
      | ok ys =>
        rw [hm] at h
        simp only [bind, Except.bind, pure, Except.pure, Except.ok.injEq] at h
        rw [← h, List.length_cons, ih ys hm, List.length_cons]

/-! ## Helper lemmas about the Source accept loop -/

theorem map_sent_cons_congr (ev : ServeEvent) (x y : Except String (List ServeEvent))
    (h : x.map sentMessages = y.map sentMessages) :
    (x.map (ev :: ·)).map sentMessages = (y.map (ev :: ·)).map sentMessages := by
  cases x with
  | error e =>
    cases y with
    | error e' =>
      simp only [Except.map, Except.error.injEq] at h
      simp [Except.map, h]
    | ok evs => simp [Except.map] at h
  | ok evs =>
    cases y with
    | error e' => simp [Except.map] at h
    | ok evs' =>
      simp only [Except.map, Except.ok.injEq] at h
      cases ev with
      | ignoredMismatch u =>
        simp only [Except.map, Except.ok.injEq, sentMessages]
        exact h
      | sentMessage u ok =>
        simp only [Except.map, Except.ok.injEq, sentMessages]
        rw [h]

theorem serveLoop_sent_skip_mismatch (clientUid u : Nat) (c : Conn)
    (hcred : c.peerCreds = some u) (hne : u ≠ clientUid) :
    ∀ pre post : List Conn,
      (serveLoop clientUid (pre ++ c :: post)).map sentMessages =
        (serveLoop clientUid (pre ++ post)).map sentMessages := by
  intro pre
  induction pre with
  | nil =>
    intro post
    simp only [List.nil_append, serveLoop, hcred]
    rw [if_pos hne]
    cases serveLoop clientUid post with
    | error e => rfl
    | ok evs => rfl
  | cons d pre ih =>
    intro post
    cases hd : d.peerCreds with
    | none => simp [List.cons_append, serveLoop, hd, Except.map]
    | some v =>
      simp only [List.cons_append, serveLoop, hd]
      by_cases hv : v ≠ clientUid
      · rw [if_pos hv, if_pos hv]
        exact map_sent_cons_congr _ _ _ (ih post)
      · rw [if_neg hv, if_neg hv]
        exact map_sent_cons_congr _ _ _ (ih post)

theorem serveLoop_all_matching (clientUid : Nat) (conns : List Conn)
    (h : ∀ c ∈ conns, c.peerCreds = some clientUid) :
    (serveLoop clientUid conns).map sentMessages =
      Except.ok (conns.map fun c => (clientUid, c.sendOk)) := by
  induction conns with
  | nil => rfl
  | cons c rest ih =>
    have hc := h c (List.mem_cons_self c rest)
    have hr := ih (fun d hd => h d (List.mem_cons_of_mem c hd))
    simp only [serveLoop, hc]
    rw [if_neg (by simp)]
    cases hm : serveLoop clientUid rest with
    | error e =>
      rw [hm] at hr
      simp [Except.map] at hr
    | ok evs =>
      rw [hm] at hr
      simp only [Except.map, Except.ok.injEq] at hr
      simp only [Except.map, Except.ok.injEq, sentMessages, List.map_cons]
      rw [hr]

theorem serveLoop_running_of_creds (clientUid : Nat) (conns : List Conn)
    (h : ∀ c ∈ conns, c.peerCreds ≠ none) :
    (serveLoop clientUid conns).isOk = true := by
  induction conns with
  | nil => rfl
  | cons c rest ih =>
    have hc := h c (List.mem_cons_self c rest)
    have hr := ih (fun d hd => h d (List.mem_cons_of_mem c hd))
    cases hcp : c.peerCreds with
    | none => exact absurd hcp hc
    | some v =>
      simp only [serveLoop, hcp]
      by_cases hv : v ≠ clientUid
      · rw [if_pos hv]
        cases hm : serveLoop clientUid rest with
        | error e => rw [hm] at hr; simp [Except.isOk, Except.toBool] at hr
        | ok evs => rfl
      · rw [if_neg hv]
        cases hm : serveLoop clientUid rest with
        | error e => rw [hm] at hr; simp [Except.isOk, Except.toBool] at hr
        | ok evs => rfl

theorem serveLoop_fatal_creds (clientUid : Nat) (c : Conn) (hc : c.peerCreds = none) :
    ∀ pre post : List Conn, (∀ d ∈ pre, d.peerCreds ≠ none) →
      serveLoop clientUid (pre ++ c :: post) =
        Except.error "failed to obtain peer credentials" := by
  intro pre
  induction pre with
  | nil =>
    intro post _
    simp only [List.nil_append, serveLoop, hc]
  | cons d pre ih =>
    intro post h
    have hd0 := h d (List.mem_cons_self d pre)
    have hrest := ih post (fun e he => h e (List.mem_cons_of_mem d he))
    cases hd : d.peerCreds with
    | none => exact absurd hd hd0
    | some v =>
      simp only [List.cons_append, serveLoop, hd]
      by_cases hv : v ≠ clientUid
      · rw [if_pos hv]
        change Except.map _ (serveLoop clientUid (pre ++ c :: post)) = _
        rw [hrest]
        rfl
      · rw [if_neg hv]
        change Except.map _ (serveLoop clientUid (pre ++ c :: post)) = _
        rw [hrest]
        rfl

/-! ## Claim C1 -/

/-- C1: for every binding list with unique target paths, a complete
Source-to-Sink exchange — `MultiServer::serve` sending, `fetch_fds`
receiving — yields a Descriptor Map whose length equals the binding list's
length and whose target-path order matches the binding order exactly, with
target paths and (duplicated) descriptors index-aligned and preserved
end-to-end. -/
theorem c1_exchange_preserves_order_and_length (bindings : List FileBinding)
    (fds : List Int) (dup : Int → Option Int) (g : Int → Int)
    (huniq : (bindings.map FileBinding.target_path).Nodup)
    (hlen : fds.length = bindings.length)
    (hcount : bindings.length < 2 ^ 64)
    (hsmall : ∀ b ∈ bindings, b.target_path.length < 2 ^ 64)
    (hpay : (encodePaths (bindings.map FileBinding.target_path)).length < 2 ^ 64)
    (hvalid : ∀ fd ∈ fds, MIN_FD < fd)
    (hdup : ∀ fd ∈ fds, dup fd = some (g fd)) :
    ∃ m, fetch_fds dup (serveTranscript bindings fds) = Except.ok m ∧
      m.length = bindings.length ∧
      m.map Prod.fst = bindings.map FileBinding.target_path ∧
      m.map Prod.snd = fds.map g := by
  have hlens : (bindings.map FileBinding.target_path).length = (fds.map g).length := by
    rw [List.length_map, List.length_map, hlen]
  obtain ⟨h1, h2, h3⟩ := zip_lengths _ _ hlens
  refine ⟨_, fetch_fds_serveTranscript bindings fds dup g hlen hcount hsmall hpay hvalid hdup,
    ?_, h2, h3⟩
  rw [h1, List.length_map]

/-- Witness for C1 at a concrete two-binding exchange. -/
theorem c1_witness :
    ∃ m, fetch_fds (fun fd => some (fd + 10))
        (serveTranscript [⟨[1], [10]⟩, ⟨[2], [11]⟩] [5, 6]) = Except.ok m ∧
      m.length = ([⟨[1], [10]⟩, ⟨[2], [11]⟩] : List FileBinding).length ∧
      m.map Prod.fst =
        ([⟨[1], [10]⟩, ⟨[2], [11]⟩] : List FileBinding).map FileBinding.target_path ∧
      m.map Prod.snd = ([5, 6] : List Int).map (fun fd => fd + 10) :=
  c1_exchange_preserves_order_and_length [⟨[1], [10]⟩, ⟨[2], [11]⟩] [5, 6]
    (fun fd => some (fd + 10)) (fun fd => fd + 10)
    (by decide) (by decide) (by decide) (by decide) (by decide) (by decide) (by decide)

/-! ## Claim C2 -/

/-- C2 counterexample: a message announcing one descriptor whose payload
deserializes to two target paths is not rejected by `fetch_fds`: the path
list and the descriptor list are zipped to the shorter length and a partial
one-entry Descriptor Map is returned, although the deserialized path list's
length (2) differs from the descriptor count (1). -/
theorem c2_counterexample :
    decodePaths (encodePaths [[97], [98]]) = some [[97], [98]] ∧
    fetch_fds (fun fd => some (fd + 10))
      { d1 := encodeUsize (encodePaths [[97], [98]]).length
        d2 := encodeUsize 1
        d3 := { payload := encodePaths [[97], [98]], fds := [5] } } =
      Except.ok [([97], 15)] := by
  exact ⟨by decide, by decide⟩

/-- C2 (amended): `fetch_fds` rejects an ancillary descriptor count that
differs from the announced count, a payload byte count that differs from
the announced length and a truncated payload, and it aborts when any check
fails; but it performs no comparison of the deserialized path list's length
against the descriptor count — the result is the two lists zipped, whose
length is the minimum of the path-list length and the descriptor count, so
such a mismatch yields a partial map rather than an error. -/
theorem c2_fetch_fds_verification (dup : Int → Option Int) (t : Transcript)
    (m : List (List Nat × Int)) (h : fetch_fds dup t = Except.ok m) :
    ∃ targetsMessageLen numFds targets fds,
      fetch_usize t.d1 = Except.ok targetsMessageLen ∧
      fetch_usize t.d2 = Except.ok numFds ∧
      min t.d3.fds.length numFds = numFds ∧
      min t.d3.payload.length targetsMessageLen = targetsMessageLen ∧
      ¬ targetsMessageLen < t.d3.payload.length ∧
      decodePaths (t.d3.payload.take targetsMessageLen) = some targets ∧
      (t.d3.fds.take numFds).mapM (validateFd dup) = Except.ok fds ∧
      fds.length = numFds ∧
      m = targets.zip fds ∧
      m.length = min targets.length numFds := by
  simp only [fetch_fds] at h
  split at h
  · exact Except.noConfusion h
  · rename_i targetsMessageLen h1
    split at h
    · exact Except.noConfusion h
    · rename_i numFds h2
      split at h
      · exact Except.noConfusion h
      · rename_i hfds
        split at h
        · exact Except.noConfusion h
        · rename_i hbytes
          split at h
          · exact Except.noConfusion h
          · rename_i htrunc
            split at h
            · exact Except.noConfusion h
            · rename_i targets hdec
              split at h
              · exact Except.noConfusion h
              · rename_i fds hmapm
                cases h
                have hfl : fds.length = numFds := by
                  rw [mapM_ok_length (validateFd dup) _ _ hmapm, List.length_take]
                  omega
                refine ⟨targetsMessageLen, numFds, targets, fds, h1, h2, ?_, ?_, ?_,
                  hdec, hmapm, hfl, rfl, ?_⟩
                · omega
                · omega
                · simpa using htrunc
                · rw [List.length_zip, hfl]

/-- Witness for the amended C2 at the counterexample transcript. -/
theorem c2_amended_witness :
    ∃ targetsMessageLen numFds targets fds,
      fetch_usize (encodeUsize (encodePaths [[97], [98]]).length) =
        Except.ok targetsMessageLen ∧
      fetch_usize (encodeUsize 1) = Except.ok numFds ∧
      min ([5] : List Int).length numFds = numFds ∧
      min (encodePaths [[97], [98]]).length targetsMessageLen = targetsMessageLen ∧
      ¬ targetsMessageLen < (encodePaths [[97], [98]]).length ∧
      decodePaths ((encodePaths [[97], [98]]).take targetsMessageLen) = some targets ∧
      (([5] : List Int).take numFds).mapM (validateFd (fun fd => some (fd + 10))) =
        Except.ok fds ∧
      fds.length = numFds ∧
      [([97], (15 : Int))] = targets.zip fds ∧
      ([([97], (15 : Int))]).length = min targets.length numFds :=
  c2_fetch_fds_verification (fun fd => some (fd + 10))
    { d1 := encodeUsize (encodePaths [[97], [98]]).length
      d2 := encodeUsize 1
      d3 := { payload := encodePaths [[97], [98]], fds := [5] } }
    [([97], 15)] (by decide)

/-! ## Claim C3 -/

/-- C3, code evaluated at the failing input: a received descriptor numbered
3 — which is not in the reserved 0/1/2 range — is rejected by `fetch_fds`,
whose filter `fd > MIN_FD` keeps only descriptors strictly greater than 3;
this contradicts the reserved-range comment above `MIN_FD` ("don't accept
file descriptors 0, 1, or 2") and the sibling single-descriptor `fetch_fd`,
which accepts descriptor 3 via `fd >= MIN_FD`. -/
theorem c3_fd_three_rejected :
    MIN_FD = 3 ∧
    fetch_fds (fun fd => some fd)
      { d1 := encodeUsize (encodePaths [[97]]).length
        d2 := encodeUsize 1
        d3 := { payload := encodePaths [[97]], fds := [3] } } =
      Except.error "received invalid file descriptor" :=
  ⟨rfl, by decide⟩

/-! ## Claim C4 -/

/-- C4: the path sanitizer `as_relative_path` fails with a hard error
whenever any component of the input path is a parent-reference ".."; an
otherwise accepted absolute path has its leading root marker stripped and
the remainder joined under the parent, and a relative path is joined under
the parent directly; concretely, sanitizing "/tmp/foo/bar" under "/tmp"
gives "/tmp/tmp/foo/bar", sanitizing "/and/then" under "tmp" gives
"tmp/and/then", and sanitizing "/uh-oh/../../../../help" fails. -/
theorem c4_path_sanitizer :
    (∀ parent path : RPath, ".." ∈ path.components →
      as_relative_path parent path =
        Except.error "target path may not refer to parents") ∧
    (∀ parent path : RPath, ".." ∉ path.components →
      as_relative_path parent path =
        Except.ok ⟨parent.absolute, parent.components ++ path.components⟩) ∧
    as_relative_path ⟨true, ["tmp"]⟩ ⟨true, ["tmp", "foo", "bar"]⟩ =
      Except.ok ⟨true, ["tmp", "tmp", "foo", "bar"]⟩ ∧
    as_relative_path ⟨false, ["tmp"]⟩ ⟨true, ["and", "then"]⟩ =
      Except.ok ⟨false, ["tmp", "and", "then"]⟩ ∧
    as_relative_path ⟨true, ["anything"]⟩ ⟨true, ["uh-oh", "..", "..", "..", "..", "help"]⟩ =
      Except.error "target path may not refer to parents" :=
  ⟨as_relative_path_error_of_mem, as_relative_path_ok_of_not_mem,
   by decide, by decide, by decide⟩

/-- Witness for C4 at concrete inputs of both general branches. -/
theorem c4_witness :
    as_relative_path ⟨true, ["a"]⟩ ⟨false, ["b", ".."]⟩ =
      Except.error "target path may not refer to parents" ∧
    as_relative_path ⟨true, ["a"]⟩ ⟨false, ["b"]⟩ =
      Except.ok ⟨true, ["a", "b"]⟩ :=
  ⟨c4_path_sanitizer.1 ⟨true, ["a"]⟩ ⟨false, ["b", ".."]⟩ (by decide),
   c4_path_sanitizer.2.1 ⟨true, ["a"]⟩ ⟨false, ["b"]⟩ (by decide)⟩

/-! ## Claim C5 -/

/-- C5 counterexample: the sanitizer accepts parent "/tmp" with path "/"
(absolute, with no further components) and returns the parent itself, so
the produced path is not strictly inside the parent. -/
theorem c5_counterexample :
    as_relative_path ⟨true, ["tmp"]⟩ ⟨true, []⟩ =
      Except.ok ⟨true, ["tmp"]⟩ := by decide

/-- C5 (amended): for every parent and every path accepted by the
sanitizer, the result is the parent joined with the path's root-stripped
components, which contain no parent-reference: the result never resolves
outside the parent and is a strict descendant exactly when that remainder
is nonempty, but equals the parent itself when the accepted path has no
components (such as the root path "/"); all independent of filesystem
state. -/
theorem c5_sanitizer_stays_under_parent (parent path r : RPath)
    (h : as_relative_path parent path = Except.ok r) :
    r.absolute = parent.absolute ∧
    r.components = parent.components ++ path.components ∧
    ".." ∉ path.components ∧
    (path.components = [] → r = parent) := by
  have hmem : ".." ∉ path.components := by
    intro hmem
    rw [as_relative_path_error_of_mem parent path hmem] at h
    exact Except.noConfusion h
  rw [as_relative_path_ok_of_not_mem parent path hmem] at h
  injection h with h'
  subst h'
  refine ⟨rfl, rfl, hmem, ?_⟩
  intro he
  rw [he, List.append_nil]

/-- Witness for the amended C5 at a concrete accepted input. -/
theorem c5_amended_witness :
    (⟨true, ["tmp", "x"]⟩ : RPath).absolute = (⟨true, ["tmp"]⟩ : RPath).absolute ∧
    (⟨true, ["tmp", "x"]⟩ : RPath).components = ["tmp"] ++ ["x"] ∧
    ".." ∉ ["x"] :=
  ⟨(c5_sanitizer_stays_under_parent ⟨true, ["tmp"]⟩ ⟨true, ["x"]⟩ ⟨true, ["tmp", "x"]⟩
      (by decide)).1,
   (c5_sanitizer_stays_under_parent ⟨true, ["tmp"]⟩ ⟨true, ["x"]⟩ ⟨true, ["tmp", "x"]⟩
      (by decide)).2.1,
   (c5_sanitizer_stays_under_parent ⟨true, ["tmp"]⟩ ⟨true, ["x"]⟩ ⟨true, ["tmp", "x"]⟩
      (by decide)).2.2.1⟩

/-! ## Claim C6 -/

/-- C6: invoking the Sink when the publish-parent path or the marker path
already exists fails immediately, performing no fetch, no daemonization and
no filesystem mutation: both must be absent before a run proceeds to any
further step. -/
theorem c6_sink_preconditions (w : SinkWorld)
    (fetchRes : Except String (List (List Nat × Int))) (logRes : Except String Unit)
    (h : w.parentPathEx = true ∨ w.markerPathEx = true) :
    (multiLinkExecuteFg w fetchRes logRes).1.isOk = false ∧
    (multiLinkExecuteFg w fetchRes logRes).2 = [] := by
  unfold multiLinkExecuteFg
  rcases h with h | h
  · rw [if_pos h]
    exact ⟨rfl, rfl⟩
  · by_cases hp : w.parentPathEx = true
    · rw [if_pos hp]
      exact ⟨rfl, rfl⟩
    · rw [if_neg hp, if_pos h]
      exact ⟨rfl, rfl⟩

/-- Witness for C6 with an already-existing parent path. -/
theorem c6_witness :
    (multiLinkExecuteFg ⟨true, false⟩ (Except.ok []) (Except.ok ())).1.isOk = false ∧
    (multiLinkExecuteFg ⟨true, false⟩ (Except.ok []) (Except.ok ())).2 = [] :=
  c6_sink_preconditions ⟨true, false⟩ (Except.ok []) (Except.ok ()) (Or.inl rfl)

/-! ## Claim C7 -/

/-- C7: a connection whose effective UID differs from the configured client
UID is sent no message and only that connection is dropped — the messages
sent by the accept loop, and whether it keeps running, are exactly those of
the run without the mismatched connection — and every subsequent connection
whose credential matches is served the message. -/
theorem c7_identity_mismatch_recovered (clientUid u : Nat) (c : Conn)
    (pre post : List Conn) (hcred : c.peerCreds = some u) (hne : u ≠ clientUid) :
    (serveLoop clientUid (pre ++ c :: post)).map sentMessages =
      (serveLoop clientUid (pre ++ post)).map sentMessages ∧
    (∀ conns : List Conn, (∀ d ∈ conns, d.peerCreds = some clientUid) →
      (serveLoop clientUid conns).map sentMessages =
        Except.ok (conns.map fun d => (clientUid, d.sendOk))) :=
  ⟨serveLoop_sent_skip_mismatch clientUid u c hcred hne pre post,
   fun conns hconns => serveLoop_all_matching clientUid conns hconns⟩

/-- Witness for C7: a mismatched connection (UID 42 against expected 1000)
followed by a matching one, which is still served. -/
theorem c7_witness :
    (serveLoop 1000 ([] ++ ⟨some 42, true⟩ :: [⟨some 1000, true⟩])).map sentMessages =
      (serveLoop 1000 ([] ++ [⟨some 1000, true⟩])).map sentMessages ∧
    (serveLoop 1000 [⟨some 1000, true⟩]).map sentMessages =
      Except.ok (([(⟨some 1000, true⟩ : Conn)]).map fun d => (1000, d.sendOk)) :=
  ⟨(c7_identity_mismatch_recovered 1000 42 ⟨some 42, true⟩ [] [⟨some 1000, true⟩]
      rfl (by decide)).1,
   (c7_identity_mismatch_recovered 1000 42 ⟨some 42, true⟩ [] [⟨some 1000, true⟩]
      rfl (by decide)).2 [⟨some 1000, true⟩] (by decide)⟩

/-! ## Claim C8 -/

/-- C8 counterexample: when `initial_peer_credentials` fails on a
connection, the `?` operator surfaces the error to the accept loop and
`serve` returns — the subsequent matching connection is never served —
contradicting the claim that every non-identity-mismatch per-connection
error is never surfaced to the accept loop. -/
theorem c8_counterexample :
    serveLoop 1000 [⟨none, true⟩, ⟨some 1000, true⟩] =
      Except.error "failed to obtain peer credentials" := by decide

/-- C8 (amended): a failure of the spawned send task terminates only that
task — the loop keeps running whatever the send outcomes and peer UIDs are,
and never terminates on success — but a failure to obtain a peer's
credentials is surfaced to the accept loop and stops `serve`, alongside the
fatal bind- and accept-level errors. -/
theorem c8_per_connection_errors (clientUid : Nat) :
    (∀ conns : List Conn, (∀ c ∈ conns, c.peerCreds ≠ none) →
      (serveLoop clientUid conns).isOk = true) ∧
    (∀ (c : Conn) (pre post : List Conn), c.peerCreds = none →
      (∀ d ∈ pre, d.peerCreds ≠ none) →
      serveLoop clientUid (pre ++ c :: post) =
        Except.error "failed to obtain peer credentials") :=
  ⟨fun conns h => serveLoop_running_of_creds clientUid conns h,
   fun c pre post hc hpre => serveLoop_fatal_creds clientUid c hc pre post hpre⟩

/-- Witness for the amended C8: a failing send task does not stop the loop;
a credential-read failure after a served connection does. -/
theorem c8_amended_witness :
    (serveLoop 7 [⟨some 5, false⟩]).isOk = true ∧
    serveLoop 7 ([⟨some 7, true⟩] ++ ⟨none, true⟩ :: []) =
      Except.error "failed to obtain peer credentials" :=
  ⟨(c8_per_connection_errors 7).1 [⟨some 5, false⟩] (by decide),
   (c8_per_connection_errors 7).2 ⟨none, true⟩ [⟨some 7, true⟩] [] rfl (by decide)⟩

/-! ## Claim C9 -/

/-- C9: every rendezvous wait is level-triggered with an explicit pre-check
of current state before blocking on the event stream: establishing the wait
for marker creation when the marker already exists returns immediately
(zero events consumed), and establishing the wait for marker deletion when
the marker is already absent likewise returns immediately. -/
theorem c9_wait_is_level_triggered (marker : String) (s : FsState)
    (events : List FsState) :
    (file_found s marker = true → waitForMarkerCreate marker s events = some 0) ∧
    (file_found s marker = false → waitForMarkerDelete marker s events = some 0) := by
  constructor
  · intro h
    rw [waitForMarkerCreate]
    unfold inotifyWait
    rw [if_pos h]
  · intro h
    rw [waitForMarkerDelete]
    unfold inotifyWait
    rw [if_pos (show file_not_found s marker = true by simp [file_not_found, h])]

/-- Witness for C9: the marker pre-existing for the creation wait, and
absent for the deletion wait. -/
theorem c9_witness :
    waitForMarkerCreate "marker" ["marker"] [[]] = some 0 ∧
    waitForMarkerDelete "marker" [] [["marker"]] = some 0 :=
  ⟨(c9_wait_is_level_triggered "marker" ["marker"] [[]]).1 (by decide),
   (c9_wait_is_level_triggered "marker" [] [["marker"]]).2 (by decide)⟩

/-! ## Claim C10 -/

/-- C10: when reading a fixed-width length field, `fetch_usize` returns an
error unless the number of bytes actually received equals exactly the
native word size `size_of::<usize>()`; a short read of a length field is
always a protocol error and is never interpreted as a value. -/
theorem c10_fetch_usize_exact_read (d : List Nat) :
    (min d.length usizeBytes ≠ usizeBytes →
      fetch_usize d = Except.error "socket sent invalid field") ∧
    (∀ v, fetch_usize d = Except.ok v →
      min d.length usizeBytes = usizeBytes ∧ usizeBytes ≤ d.length) := by
  constructor
  · intro h
    simp only [fetch_usize]
    rw [if_pos (Ne.symm h)]
  · intro v hv
    simp only [fetch_usize] at hv
    split at hv
    · exact Except.noConfusion hv
    · rename_i h
      exact ⟨by omega, by omega⟩

/-- Witness for C10: a one-byte datagram is rejected as a length field. -/
theorem c10_witness :
    fetch_usize [0] = Except.error "socket sent invalid field" :=
  (c10_fetch_usize_exact_read [0]).1 (by decide)

end Pipesys
